import Mathlib

/-!
Verification of the pyasdl ASDL compiler (src/pyasdl/__init__.py) against its
natural-language specification.

The Python source is shallowly embedded: pure functions become Lean functions,
the tokenizer generator becomes a strict function returning `Except`, the
mutable recursive-descent parser becomes explicit state passing over a token
cursor, and loops are modelled with a fuel parameter that is always given
enough fuel at the call sites (every loop iteration of the source consumes at
least one character or token).
-/

namespace Pyasdl

/-- Embedding of the ASDLSyntaxError exception: a message plus an optional
line number.  The constructor of the Python class stores
`lineno or "<unknown>"`; we keep `none` for the `"<unknown>"` case. -/
structure ASDLSyntaxError where
  msg : String
  lineno : Option Nat
deriving DecidableEq

/-- Embedding of enum TokenKind from the source. -/
inductive TokenKind where
  | CONSTRUCTOR_ID
  | TYPE_ID
  | EQUALS
  | COMMA
  | QUESTION
  | PIPE
  | ASTERISK
  | LPAREN
  | RPAREN
  | LBRACE
  | RBRACE
deriving DecidableEq

/-- Embedding of class Token (kind, value, lineno). -/
structure Token where
  kind : TokenKind
  value : String
  lineno : Nat
deriving DecidableEq

/-- Embedding of OPERATOR_TOKEN_TABLE as a partial lookup on characters.
The braces are written with hex escapes. -/
def OPERATOR_TOKEN_TABLE (c : Char) : Option TokenKind :=
  if c = '=' then some TokenKind.EQUALS
  else if c = ',' then some TokenKind.COMMA
  else if c = '?' then some TokenKind.QUESTION
  else if c = '|' then some TokenKind.PIPE
  else if c = '(' then some TokenKind.LPAREN
  else if c = ')' then some TokenKind.RPAREN
  else if c = '*' then some TokenKind.ASTERISK
  else if c = '\x7b' then some TokenKind.LBRACE
  else if c = '\x7d' then some TokenKind.RBRACE
  else none

/-- Characters that continue an identifier once one has started
(`line[idx].isalpha() or line[idx] == "_"` in the source). -/
def idContChar (c : Char) : Bool := c.isAlpha || c = '_'

/-- The comment test of the scanner
(`line.startswith("--", col_no)` in the source). -/
def isCommentStart (c : Char) (rest : List Char) : Bool :=
  c = '-' && rest.head? = some '-'

/-- Embedding of the per-line scanning loop of `tokenize`.  The fuel
parameter models the `while col_no < len(line)` loop; each iteration of the
source consumes at least one character, so fuel `length + 1` is always
enough.  Running out of fuel returns the tokens collected so far (it never
happens at the call sites). -/
def scanLine : Nat → Nat → List Char → Except ASDLSyntaxError (List Token)
  | 0, _, _ => .ok []
  | _ + 1, _, [] => .ok []
  | fuel + 1, lineNo, c :: rest =>
    if c.isWhitespace then scanLine fuel lineNo rest
    else if c.isAlpha then
      match scanLine fuel lineNo (rest.dropWhile idContChar) with
      | .ok ts =>
        .ok (Token.mk (if c.isUpper then TokenKind.CONSTRUCTOR_ID else TokenKind.TYPE_ID)
          (String.mk (c :: rest.takeWhile idContChar)) lineNo :: ts)
      | .error e => .error e
    else if isCommentStart c rest then .ok []
    else match OPERATOR_TOKEN_TABLE c with
      | some opKind =>
        match scanLine fuel lineNo rest with
        | .ok ts => .ok (Token.mk opKind (String.mk [c]) lineNo :: ts)
        | .error e => .error e
      | none => .error (ASDLSyntaxError.mk ("Invalid operator " ++ String.mk [c]) (some lineNo))

/-- Helper for `splitLines`: split a character list at newline characters,
accumulating the current line in reverse. -/
def splitLinesAux : List Char → List Char → List (List Char)
  | [], acc => [acc.reverse]
  | c :: rest, acc =>
    if c = '\n' then acc.reverse :: splitLinesAux rest [] else splitLinesAux rest (c :: acc)

/-- Embedding of `str.splitlines`: split at newlines, with no trailing empty
line for a trailing newline and an empty result for the empty string. -/
def splitLines (s : List Char) : List (List Char) :=
  let ps := splitLinesAux s []
  if ps.getLast? = some [] then ps.dropLast else ps

/-- Embedding of the outer loop of `tokenize`: scan each line in order with
1-based line numbers, concatenating the produced tokens. -/
def tokenizeLines : Nat → List (List Char) → Except ASDLSyntaxError (List Token)
  | _, [] => .ok []
  | n, l :: ls =>
    match scanLine (l.length + 1) n l with
    | .error e => .error e
    | .ok ts =>
      match tokenizeLines (n + 1) ls with
      | .error e => .error e
      | .ok more => .ok (ts ++ more)

/-- Embedding of `tokenize` (strict: the lazily yielded tokens of the source
generator are collected into a list, and the first raised error wins). -/
def tokenize (source : String) : Except ASDLSyntaxError (List Token) :=
  tokenizeLines 1 (splitLines source.data)

/-- Modelled from the spec, for the error-condition claim: the first
character of a line that the scan reaches and that is not whitespace, not
alphabetic, not the start of a `--` comment, and not a single-character
operator.  The scan skips whitespace, identifier runs and operators exactly
as the tokenizer does. -/
def firstBadInLine : Nat → List Char → Option Char
  | 0, _ => none
  | _ + 1, [] => none
  | fuel + 1, c :: rest =>
    if c.isWhitespace then firstBadInLine fuel rest
    else if c.isAlpha then firstBadInLine fuel (rest.dropWhile idContChar)
    else if isCommentStart c rest then none
    else
      match OPERATOR_TOKEN_TABLE c with
      | some _ => firstBadInLine fuel rest
      | none => some c

/-- Modelled from the spec: the first reached invalid character of the
source, together with its 1-based line number. -/
def firstBadLines : Nat → List (List Char) → Option (Char × Nat)
  | _, [] => none
  | n, l :: ls =>
    match firstBadInLine (l.length + 1) l with
    | some c => some (c, n)
    | none => firstBadLines (n + 1) ls

/-- Modelled from the spec: the first reached invalid character of a source
string with its 1-based line number, or none when the whole source scans
cleanly. -/
def firstBadChar (source : String) : Option (Char × Nat) :=
  firstBadLines 1 (splitLines source.data)

/-- Embedding of enum FieldQuantifier. -/
inductive FieldQuantifier where
  | SEQ
  | OPT
deriving DecidableEq

/-- Embedding of the meta-AST class Field (type, name, quantifier); name and
quantifier are optional exactly as in the source. -/
structure Field where
  type : String
  name : Option String
  quantifier : Option FieldQuantifier
deriving DecidableEq

/-- Embedding of the meta-AST class Constructor (name, fields). -/
structure Constructor where
  name : String
  fields : List Field
deriving DecidableEq

/-- Embedding of the meta-AST class Sum (types, attributes); `types` is the
constructor list. -/
structure Sum where
  types : List Constructor
  attributes : List Field
deriving DecidableEq

/-- Embedding of the meta-AST class Product (fields, attributes). -/
structure Product where
  fields : List Field
  attributes : List Field
deriving DecidableEq

/-- Embedding of the `Union[Product, Sum]` value of a type definition. -/
inductive TyValue where
  | product (p : Product)
  | sum (s : Sum)
deriving DecidableEq

/-- Embedding of the meta-AST class Type (name, value).  The source calls
this class `Type`; that name is taken in Lean, so the spec name TypeDef is
used. -/
structure TypeDef where
  name : String
  value : TyValue
deriving DecidableEq

/-- Embedding of the meta-AST class Module (name, dfns). -/
structure Module where
  name : String
  dfns : List TypeDef
deriving DecidableEq

/-- Embedding of TOKEN_TO_FIELD_QUANTIFIER. -/
def TOKEN_TO_FIELD_QUANTIFIER (k : TokenKind) : Option FieldQuantifier :=
  if k = TokenKind.ASTERISK then some FieldQuantifier.SEQ
  else if k = TokenKind.QUESTION then some FieldQuantifier.OPT
  else none

/-- Errors that the parser rules can raise.  The rules access the current
token through `self.cur_token`; when the token stream has run out that
attribute holds the `_empty` sentinel object, and reading `.kind`, `.value`
or `.lineno` on it raises AttributeError.  Fuel exhaustion is an artifact of
the embedding and is unreachable for the fuel passed by `parse`. -/
inductive PSubErr where
  | syntaxError (msg : String) (lineno : Nat)
  | attributeError
  | fuelOut
deriving DecidableEq

/-- Errors of the top-level `parse`: the priming `next(self._tokenizer)` is
the only call without a default, so StopIteration can only escape there. -/
inductive PErr where
  | stopIteration
  | sub (e : PSubErr)
deriving DecidableEq

/-- Parser state: the remaining token stream and the current token
(`none` models the `_empty` sentinel after exhaustion). -/
structure PState where
  tokens : List Token
  cur : Option Token
deriving DecidableEq

/-- Embedding of ASDLParser.advance: return the current token value and pull
the next token (with the `_empty` default) into the cursor. -/
def advanceP (st : PState) : Except PSubErr (String × PState) :=
  match st.cur with
  | none => .error .attributeError
  | some t => .ok (t.value, PState.mk st.tokens.tail st.tokens.head?)

/-- Embedding of ASDLParser.at_kind (with the tuple case as a list). -/
def at_kind (kinds : List TokenKind) (st : PState) : Except PSubErr Bool :=
  match st.cur with
  | none => .error .attributeError
  | some t => .ok (kinds.any fun k => k = t.kind)

/-- Embedding of ASDLParser.at_keyword. -/
def at_keyword (keyword : String) (st : PState) : Except PSubErr Bool :=
  match st.cur with
  | none => .error .attributeError
  | some t => .ok (t.kind = TokenKind.TYPE_ID && t.value = keyword)

/-- Rendering of a token kind for error messages (`f-string` of the enum
member in the source). -/
def kindRepr (k : TokenKind) : String :=
  match k with
  | .CONSTRUCTOR_ID => "TokenKind.CONSTRUCTOR_ID"
  | .TYPE_ID => "TokenKind.TYPE_ID"
  | .EQUALS => "TokenKind.EQUALS"
  | .COMMA => "TokenKind.COMMA"
  | .QUESTION => "TokenKind.QUESTION"
  | .PIPE => "TokenKind.PIPE"
  | .ASTERISK => "TokenKind.ASTERISK"
  | .LPAREN => "TokenKind.LPAREN"
  | .RPAREN => "TokenKind.RPAREN"
  | .LBRACE => "TokenKind.LBRACE"
  | .RBRACE => "TokenKind.RBRACE"

/-- Rendering of the expected kind or kinds for the `match` error message. -/
def kindsRepr (kinds : List TokenKind) : String :=
  match kinds with
  | [k] => kindRepr k
  | ks => "(" ++ String.intercalate (", ") (ks.map kindRepr) ++ ")"

/-- Embedding of ASDLParser.match: on the expected kind return the value and
advance, otherwise raise an ASDLSyntaxError at the current token's line. -/
def matchKind (kinds : List TokenKind) (st : PState) : Except PSubErr (String × PState) :=
  match st.cur with
  | none => .error .attributeError
  | some t =>
    if kinds.any fun k => k = t.kind then advanceP st
    else .error (.syntaxError ("Unmatched " ++ kindsRepr kinds ++ " (found " ++ kindRepr t.kind ++ ")") t.lineno)

/-- Embedding of ASDLParser.parse_optional_field_quantifier.  Note that it
reads `self.cur_token.kind` before the table lookup, so an exhausted stream
raises AttributeError here too. -/
def parse_optional_field_quantifier (st : PState) : Except PSubErr (Option FieldQuantifier × PState) :=
  match st.cur with
  | none => .error .attributeError
  | some t =>
    match TOKEN_TO_FIELD_QUANTIFIER t.kind with
    | some q =>
      match advanceP st with
      | .ok (_, st2) => .ok (some q, st2)
      | .error e => .error e
    | none => .ok (none, st)

/-- Embedding of the `while self.at_kind(TokenKind.TYPE_ID)` loop body of
ASDLParser.parse_fields.  One fuel unit per loop iteration. -/
def parse_fields_loop : Nat → PState → Except PSubErr (List Field × PState)
  | 0, _ => .error .fuelOut
  | fuel + 1, st => do
    let isTy ← at_kind [TokenKind.TYPE_ID] st
    if isTy then do
      let (typename, st) ← advanceP st
      let (fq, st) ← parse_optional_field_quantifier st
      let isId ← at_kind [TokenKind.TYPE_ID, TokenKind.CONSTRUCTOR_ID] st
      let (ident, st) ←
        if isId then do
          let (v, st) ← advanceP st
          pure (some v, st)
        else pure ((none : Option String), st)
      let fld := Field.mk typename ident fq
      let isRp ← at_kind [TokenKind.RPAREN] st
      if isRp then .ok ([fld], st)
      else do
        let isComma ← at_kind [TokenKind.COMMA] st
        let st ←
          if isComma then do
            let (_, st) ← advanceP st
            pure st
          else pure st
        let (rest, st) ← parse_fields_loop fuel st
        .ok (fld :: rest, st)
    else .ok ([], st)

/-- Embedding of ASDLParser.parse_fields. -/
def parse_fields (fuel : Nat) (st : PState) : Except PSubErr (List Field × PState) := do
  let (_, st) ← matchKind [TokenKind.LPAREN] st
  let (fs, st) ← parse_fields_loop fuel st
  let (_, st) ← matchKind [TokenKind.RPAREN] st
  .ok (fs, st)

/-- Embedding of ASDLParser.parse_optional_fields. -/
def parse_optional_fields (fuel : Nat) (st : PState) : Except PSubErr (List Field × PState) := do
  let isLp ← at_kind [TokenKind.LPAREN] st
  if isLp then parse_fields fuel st else .ok ([], st)

/-- Embedding of ASDLParser.parse_optional_attributes. -/
def parse_optional_attributes (fuel : Nat) (st : PState) : Except PSubErr (List Field × PState) := do
  let isAttr ← at_keyword ("attributes") st
  if isAttr then do
    let (_, st) ← advanceP st
    parse_fields fuel st
  else .ok ([], st)

/-- Embedding of the `while self.at_kind(TokenKind.PIPE)` loop of
ASDLParser.parse_sum, returning the constructors appended by the loop. -/
def parse_sum_loop : Nat → PState → Except PSubErr (List Constructor × PState)
  | 0, _ => .error .fuelOut
  | fuel + 1, st => do
    let isPipe ← at_kind [TokenKind.PIPE] st
    if isPipe then do
      let (_, st) ← advanceP st
      let (n, st) ← matchKind [TokenKind.CONSTRUCTOR_ID] st
      let (fs, st) ← parse_optional_fields fuel st
      let (rest, st) ← parse_sum_loop fuel st
      .ok (Constructor.mk n fs :: rest, st)
    else .ok ([], st)

/-- Embedding of ASDLParser.parse_sum. -/
def parse_sum (fuel : Nat) (st : PState) : Except PSubErr (Sum × PState) := do
  let (n, st) ← matchKind [TokenKind.CONSTRUCTOR_ID] st
  let (fs, st) ← parse_optional_fields fuel st
  let (more, st) ← parse_sum_loop fuel st
  let (attrs, st) ← parse_optional_attributes fuel st
  .ok (Sum.mk (Constructor.mk n fs :: more) attrs, st)

/-- Embedding of ASDLParser.parse_product. -/
def parse_product (fuel : Nat) (st : PState) : Except PSubErr (Product × PState) := do
  let (fs, st) ← parse_fields fuel st
  let (attrs, st) ← parse_optional_attributes fuel st
  .ok (Product.mk fs attrs, st)

/-- Embedding of ASDLParser.parse_type. -/
def parse_type (fuel : Nat) (st : PState) : Except PSubErr (TyValue × PState) := do
  let isLp ← at_kind [TokenKind.LPAREN] st
  if isLp then do
    let (p, st) ← parse_product fuel st
    .ok (TyValue.product p, st)
  else do
    let (s, st) ← parse_sum fuel st
    .ok (TyValue.sum s, st)

/-- Embedding of the `while self.at_kind(TokenKind.TYPE_ID)` loop of
ASDLParser.parse_definitions. -/
def parse_definitions : Nat → PState → Except PSubErr (List TypeDef × PState)
  | 0, _ => .error .fuelOut
  | fuel + 1, st => do
    let isTy ← at_kind [TokenKind.TYPE_ID] st
    if isTy then do
      let (typename, st) ← advanceP st
      let (_, st) ← matchKind [TokenKind.EQUALS] st
      let (ty, st) ← parse_type fuel st
      let (rest, st) ← parse_definitions fuel st
      .ok (TypeDef.mk typename ty :: rest, st)
    else .ok ([], st)

/-- Embedding of ASDLParser.parse_module. -/
def parse_module (fuel : Nat) (st : PState) : Except PSubErr (Module × PState) := do
  let isModule ← at_keyword ("module") st
  if isModule then do
    let (_, st) ← advanceP st
    let (n, st) ← matchKind [TokenKind.TYPE_ID, TokenKind.CONSTRUCTOR_ID] st
    let (_, st) ← matchKind [TokenKind.LBRACE] st
    let (defs, st) ← parse_definitions fuel st
    let (_, st) ← matchKind [TokenKind.RBRACE] st
    .ok (Module.mk n defs, st)
  else
    match st.cur with
    | some t => .error (.syntaxError ("Expected \"module\" (found " ++ t.value ++ ")") t.lineno)
    | none => .error .attributeError

/-- Embedding of ASDLParser.parse on a token sequence: prime the cursor with
a bare `next` (StopIteration on an empty stream), then run parse_module.
The fuel covers every loop of the parser, each iteration of which consumes
at least one token. -/
def parse (ts : List Token) : Except PErr Module :=
  match ts with
  | [] => .error .stopIteration
  | t :: rest =>
    match parse_module (ts.length + 2) (PState.mk rest (some t)) with
    | .ok (m, _) => .ok m
    | .error e => .error (.sub e)

/-- Embedding of ASDL_TYPE_TO_PYTHON_TYPE as a partial lookup. -/
def ASDL_TYPE_TO_PYTHON_TYPE (t : String) : Option String :=
  if t = "identifier" then some ("str")
  else if t = "string" then some ("str")
  else if t = "int" then some ("int")
  else if t = "constant" then some ("object")
  else none

/-- Embedding of ASDL_TYPES (the key set of the table; membership only). -/
def ASDL_TYPES : List String := ["identifier", "string", "int", "constant"]

/-- Embedding of the accumulated state of the Checker visitor: the
name-to-owner constructor map, the type-name-to-referencing-owners map (both
are insertion-ordered Python dicts, modelled as association lists), the
accumulated error messages, and the mutable `_parent_type_name` field. -/
structure CheckState where
  constructors : List (String × String)
  types : List (String × List String)
  error_messages : List String
  parent_type_name : String
deriving DecidableEq

/-- Lookup in an insertion-ordered association list (Python dict access). -/
def lookupAssoc {α : Type} : List (String × α) → String → Option α
  | [], _ => none
  | p :: rest, k => if p.1 = k then some p.2 else lookupAssoc rest k

/-- Embedding of `self.types.setdefault(key, []).append(value)`: append to
the entry of the key, inserting an empty entry first when absent (insertion
order preserved). -/
def setdefaultAppend (m : List (String × List String)) (k v : String) : List (String × List String) :=
  match lookupAssoc m k with
  | some _ => m.map fun p => if p.1 = k then (p.1, p.2 ++ [v]) else p
  | none => m ++ [(k, [v])]

namespace Checker

/-- Embedding of Checker.visit_Field: record the field's type name against
the current `_parent_type_name`. -/
def visit_Field (st : CheckState) (f : Field) : CheckState :=
  { st with types := setdefaultAppend st.types f.type st.parent_type_name }

/-- Embedding of Checker.visit_Constructor: read the current
`_parent_type_name` as the owner, overwrite it with the constructor's name
(it is never restored afterwards, exactly as in the source), record or
report the constructor, then visit the fields. -/
def visit_Constructor (st : CheckState) (c : Constructor) : CheckState :=
  let parent_name := st.parent_type_name
  let st := { st with parent_type_name := c.name }
  let st :=
    match lookupAssoc st.constructors c.name with
    | none => { st with constructors := st.constructors ++ [(c.name, parent_name)] }
    | some conflict =>
      { st with
        error_messages := st.error_messages ++
          ["Redefinition of constructor " ++ c.name,
           "Defined in " ++ conflict ++ " and " ++ parent_name] }
  c.fields.foldl visit_Field st

/-- Generic visit of a Sum by the Checker (no visit_Sum method exists): the
pre-order walk visits the constructors in order and then the attribute
fields. -/
def visit_Sum (st : CheckState) (s : Sum) : CheckState :=
  s.attributes.foldl visit_Field (s.types.foldl visit_Constructor st)

/-- Generic visit of a Product by the Checker: fields then attributes. -/
def visit_Product (st : CheckState) (p : Product) : CheckState :=
  p.attributes.foldl visit_Field (p.fields.foldl visit_Field st)

/-- Embedding of Checker.visit_Type: set `_parent_type_name` to the type
definition's name and visit the value. -/
def visit_Type (st : CheckState) (t : TypeDef) : CheckState :=
  let st := { st with parent_type_name := t.name }
  match t.value with
  | .sum s => visit_Sum st s
  | .product p => visit_Product st p

/-- Run the Checker over a Module: the walk visits the definitions in
order, starting from the empty state of Checker.`__init__`. -/
def run (m : Module) : CheckState :=
  m.dfns.foldl visit_Type (CheckState.mk [] [] [] "")

end Checker

/-- Embedding of check_tree: run the Checker, then append one
"Undefined type" message for every referenced type name (in recording
order) that is neither a primitive nor a module type name, and raise a
single aggregated error without a line number when any message exists. -/
def check_tree (mod : Module) : Except ASDLSyntaxError Unit :=
  let checker := Checker.run mod
  let module_types := mod.dfns.map TypeDef.name
  let undefined := checker.types.filterMap fun p =>
    if p.1 ∈ ASDL_TYPES ∨ p.1 ∈ module_types then none
    else some ("Undefined type " ++ p.1 ++ ", used in " ++ String.intercalate (", ") p.2)
  let msgs := checker.error_messages ++ undefined
  if msgs.isEmpty then .ok ()
  else .error (ASDLSyntaxError.mk (String.intercalate ("\n") msgs) none)

/-- Rendering of `f"{x}"` for an optional string (`str(None)` is "None"). -/
def strOpt (o : Option String) : String :=
  match o with
  | some n => n
  | none => "None"

/-- Rendering of `repr(x)` for an optional string: quoted for strings
(written with hex escapes for the quotes), "None" for None. -/
def reprOpt (o : Option String) : String :=
  match o with
  | some n => "\x27" ++ n ++ "\x27"
  | none => "None"

/-- Embedding of class _AttributeStatements. -/
structure _AttributeStatements where
  init_params : List String
  init_body_stmts : List String
deriving DecidableEq

/-- One emitted class: its name, base class, the names placed into
`__match_args__` and `_fields`, and the parameter and body statement lists
of the synthesized `__init__`.  These are exactly the lists the source
builds before joining them into text. -/
structure ClassDecl where
  name : String
  base : String
  match_args : List String
  init_params : List String
  init_body : List String
deriving DecidableEq

namespace PythonCodeGenerator

/-- Embedding of PythonCodeGenerator._build_init_param_from_field. -/
def _build_init_param_from_field (f : Field) : String :=
  let param_name := strOpt f.name ++ ": "
  let paramAnn := (ASDL_TYPE_TO_PYTHON_TYPE f.type).getD f.type
  let paramAnn :=
    match f.quantifier with
    | some FieldQuantifier.SEQ => "list[" ++ paramAnn ++ "]"
    | some FieldQuantifier.OPT => "Optional[" ++ paramAnn ++ "]"
    | none => paramAnn
  param_name ++ paramAnn

/-- The attribute parameter and assignment lists built by visit_Sum and
visit_Product when the node declares attributes (the `if node.attributes:`
branch): a bare "*" marker followed by one parameter per attribute, making
every attribute parameter keyword-only, and one assignment per attribute. -/
def attributeStatements (attrs : List Field) : Option _AttributeStatements :=
  if attrs.isEmpty then none
  else
    some (_AttributeStatements.mk
      ("*" :: attrs.map _build_init_param_from_field)
      (attrs.map fun a => "self." ++ strOpt a.name ++ " = " ++ strOpt a.name))

/-- Embedding of the class written by visit_Sum for the Sum itself (the
saved attribute statements become `_parent_type_attributes`). -/
def visit_Sum_decl (parent_type_name : String) (s : Sum) : ClassDecl :=
  match attributeStatements s.attributes with
  | some a => ClassDecl.mk parent_type_name ("AST") [] ("self" :: a.init_params) a.init_body_stmts
  | none => ClassDecl.mk parent_type_name ("AST") [] ["self"] []

/-- Embedding of the class written by visit_Product. -/
def visit_Product_decl (parent_type_name : String) (p : Product) : ClassDecl :=
  let match_args := p.fields.map fun f => reprOpt f.name
  let init_params := "self" :: p.fields.map _build_init_param_from_field
  let init_body := p.fields.map fun f => "self." ++ strOpt f.name ++ " = " ++ strOpt f.name
  match attributeStatements p.attributes with
  | some a =>
    ClassDecl.mk parent_type_name ("AST") match_args (init_params ++ a.init_params)
      (init_body ++ a.init_body_stmts)
  | none => ClassDecl.mk parent_type_name ("AST") match_args init_params init_body

/-- Embedding of visit_Constructor: the concrete class for one constructor,
given the owning type's name (`_parent_type_name`) and the owning Sum's
saved attribute statements (`_parent_type_attributes`). -/
def visit_Constructor_decl (parent_type_name : String) (parentAttrs : Option _AttributeStatements)
    (c : Constructor) : ClassDecl :=
  let match_args := c.fields.map fun f => reprOpt f.name
  let init_params := "self" :: c.fields.map _build_init_param_from_field
  let init_body := c.fields.map fun f => "self." ++ strOpt f.name ++ " = " ++ strOpt f.name
  match parentAttrs with
  | some a =>
    ClassDecl.mk c.name parent_type_name match_args (init_params ++ a.init_params)
      (init_body ++ a.init_body_stmts)
  | none => ClassDecl.mk c.name parent_type_name match_args init_params init_body

/-- Classes emitted while visiting one type definition, in emission order:
visit_Type sets `_parent_type_name`, the Sum or Product class is written,
and for a Sum each constructor is then visited in order.  The two mutable
generator fields are written by visit_Type and visit_Sum or visit_Product
before any constructor of that definition reads them, and products have no
constructors, so passing them as parameters is faithful. -/
def visit_Type_decls (t : TypeDef) : List ClassDecl :=
  match t.value with
  | .product p => [visit_Product_decl t.name p]
  | .sum s =>
    visit_Sum_decl t.name s ::
      s.types.map (visit_Constructor_decl t.name (attributeStatements s.attributes))

/-- All class declarations emitted for a Module, in emission order. -/
def generateClassDecls (m : Module) : List ClassDecl :=
  (m.dfns.map visit_Type_decls).flatten

/-- Rendering of one class declaration into the lines the source writes. -/
def renderClassDecl (d : ClassDecl) : List String :=
  let joined := String.intercalate (", ") d.match_args
  ["class " ++ d.name ++ "(" ++ d.base ++ "):",
   "    __match_args__ = (" ++ joined ++ ")",
   "    _fields = (" ++ joined ++ ")",
   ""] ++
  (if d.init_params.length > 1 ∨ d.init_body ≠ [] then
    ["    def __init__(" ++ String.intercalate (", ") d.init_params ++ ") -> None:"] ++
      d.init_body.map (fun b => "        " ++ b) ++ [""]
  else []) ++ [""]

/-- The fixed preamble written by the overridden visit method. -/
def preambleLines : List String :=
  ["from __future__ import annotations", "", "from typing import Optional", "", "",
   "class AST:", "    __match_args__ = ()", "    _fields = ()", "", ""]

/-- The full generated output for a Module, line by line. -/
def generated_code (m : Module) : List String :=
  preambleLines ++ (generateClassDecls m).flatMap renderClassDecl

end PythonCodeGenerator

/-!
Concrete inputs used by the claim theorems.
-/

/-- A SEQ-quantified field named x of type int. -/
def seqField : Field := Field.mk ("int") (some ("x")) (some FieldQuantifier.SEQ)

/-- An OPT-quantified field named y of type int. -/
def optField : Field := Field.mk ("int") (some ("y")) (some FieldQuantifier.OPT)

/-- An unquantified field named z of type int. -/
def plainField : Field := Field.mk ("int") (some ("z")) none

/-- A module with two Sum definitions that share the constructor name X,
where the duplicate is not the first constructor of its Sum:
module m with a = X and b = Z | X. -/
def c3mod : Module :=
  Module.mk ("m")
    [TypeDef.mk ("a") (TyValue.sum (Sum.mk [Constructor.mk ("X") []] [])),
     TypeDef.mk ("b") (TyValue.sum (Sum.mk [Constructor.mk ("Z") [], Constructor.mk ("X") []] []))]

/-- A module whose only field reference to the undefined type bar sits in
the attribute list of the Sum defined by the type definition q:
module m with q = X attributes (bar z). -/
def c4mod : Module :=
  Module.mk ("m")
    [TypeDef.mk ("q")
      (TyValue.sum (Sum.mk [Constructor.mk ("X") []] [Field.mk ("bar") (some ("z")) none]))]

/-- The token sequence of the source text module m \x7b t = () \x7d,
containing an empty parenthesized field list. -/
def c7toks : List Token :=
  [Token.mk TokenKind.TYPE_ID ("module") 1,
   Token.mk TokenKind.TYPE_ID ("m") 1,
   Token.mk TokenKind.LBRACE ("\x7b") 1,
   Token.mk TokenKind.TYPE_ID ("t") 1,
   Token.mk TokenKind.EQUALS ("=") 1,
   Token.mk TokenKind.LPAREN ("(") 1,
   Token.mk TokenKind.RPAREN (")") 1,
   Token.mk TokenKind.RBRACE ("\x7d") 1]

/-- The module that the parser produces for c7toks: t becomes a Product
with no fields at all. -/
def c7module : Module :=
  Module.mk ("m") [TypeDef.mk ("t") (TyValue.product (Product.mk [] []))]

/-- The Sum of c4mod: one constructor X and one attribute field. -/
def c8sum : Sum :=
  Sum.mk [Constructor.mk ("X") []] [Field.mk ("bar") (some ("z")) none]

/-- The type definition of c4mod. -/
def c8t : TypeDef := TypeDef.mk ("q") (TyValue.sum c8sum)

/-- The constructor of c8sum. -/
def c8ctor : Constructor := Constructor.mk ("X") []

/-- The token sequence of the source text module m \x7b t = A \x7d. -/
def c9toks : List Token :=
  [Token.mk TokenKind.TYPE_ID ("module") 1,
   Token.mk TokenKind.TYPE_ID ("m") 1,
   Token.mk TokenKind.LBRACE ("\x7b") 1,
   Token.mk TokenKind.TYPE_ID ("t") 1,
   Token.mk TokenKind.EQUALS ("=") 1,
   Token.mk TokenKind.CONSTRUCTOR_ID ("A") 1,
   Token.mk TokenKind.RBRACE ("\x7d") 1]

/-- The module the parser produces for c9toks. -/
def c9module : Module :=
  Module.mk ("m")
    [TypeDef.mk ("t") (TyValue.sum (Sum.mk [Constructor.mk ("A") []] []))]

/-- Case-classification property of one token: when the token's value
starts with an uppercase letter its kind is CONSTRUCTOR_ID, and when it
starts with a lowercase letter its kind is TYPE_ID. -/
def tokenCaseOk (t : Token) : Prop :=
  ∀ c cs, t.value.data = c :: cs →
    (c.isUpper = true → t.kind = TokenKind.CONSTRUCTOR_ID) ∧
    (c.isLower = true → t.kind = TokenKind.TYPE_ID)

/-!
Claim theorems.
-/

/-- Helper: success of an Except bind splits into successes of the parts. -/
theorem except_bind_ok {ε α β : Type} (x : Except ε α) (f : α → Except ε β) (b : β) :
    (x >>= f) = Except.ok b ↔ ∃ a, x = Except.ok a ∧ f a = Except.ok b := by
  cases x <;> simp [Bind.bind, Except.bind]

/-- C1: the claim says a SEQ field generates a collection-typed parameter
defaulting to the empty collection, an OPT field an optional-typed
parameter defaulting to absent, and an unquantified field a mandatory
unwrapped parameter.  The code wraps the types as claimed but emits no
default for any quantifier (no equals sign ever appears in a generated
parameter), so SEQ and OPT parameters are mandatory too; this theorem
evaluates the generator at the failing inputs. -/
theorem C1_no_default_emitted :
    PythonCodeGenerator._build_init_param_from_field seqField = "x: list[int]" ∧
    PythonCodeGenerator._build_init_param_from_field optField = "y: Optional[int]" ∧
    PythonCodeGenerator._build_init_param_from_field plainField = "z: int" ∧
    ('=' ∈ ("x: list[int]").data) = False ∧
    ('=' ∈ ("y: Optional[int]").data) = False := by
  decide

/-- C2 counterexample: on the empty token sequence, parse fails with
StopIteration (raised by the priming next call), not with a SyntaxError. -/
theorem C2_counterexample_empty_input :
    parse [] = Except.error PErr.stopIteration := rfl

/-- C2 amended: parse never reports a partial tree as success and raises
ASDLSyntaxError on token mismatches, but the empty token sequence fails
with StopIteration (and only it does); a sequence exhausted mid-parse
fails with AttributeError from reading the empty-cursor sentinel. -/
theorem C2_stopIteration_iff_empty (ts : List Token) :
    parse ts = Except.error PErr.stopIteration ↔ ts = [] := by
  cases ts with
  | nil => simp [parse]
  | cons t rest =>
    simp only [parse]
    constructor
    · intro h
      cases hp : parse_module ((t :: rest).length + 2) (PState.mk rest (some t)) with
      | ok v => rw [hp] at h; exact absurd h (by simp)
      | error e => rw [hp] at h; simp at h
    · intro h
      exact absurd h (by simp)

/-- C2 witness: the amended theorem applied at the empty sequence. -/
theorem C2_witness : parse [] = Except.error PErr.stopIteration :=
  (C2_stopIteration_iff_empty []).mpr rfl

/-- C3: the claim says the aggregated message names both owning type
definitions of a duplicated constructor name.  On c3mod (a = X and
b = Z | X) the code names the sibling constructor Z instead of the owning
type definition b, because visit_Constructor overwrites the shared
`_parent_type_name` field and never restores it; the letter b does not
occur anywhere in the message. -/
theorem C3_redefinition_names_sibling_constructor :
    check_tree c3mod =
      Except.error
        (ASDLSyntaxError.mk ("Redefinition of constructor X\nDefined in a and Z") none) ∧
    'b' ∉ ("Redefinition of constructor X\nDefined in a and Z").data :=
  And.intro rfl (by decide)

/-- C4: the claim says the aggregated message lists, per undefined type,
every owner that referenced it.  On c4mod the undefined type bar is
referenced only by the attribute list of the type definition q, yet the
message reports the non-referencing constructor X as the user (the stale
`_parent_type_name` left behind by the last constructor visit); the letter
q does not occur anywhere in the message.  The error does carry no line
number, as claimed. -/
theorem C4_undefined_type_owner_misattributed :
    check_tree c4mod =
      Except.error (ASDLSyntaxError.mk ("Undefined type bar, used in X") none) ∧
    'q' ∉ ("Undefined type bar, used in X").data :=
  And.intro rfl (by decide)

/-- C7 counterexample: the parser accepts the empty parenthesized field
list (), producing an empty Product, although the EBNF rule for fields
requires at least one field. -/
theorem C7_counterexample_empty_fields_accepted :
    parse c7toks = Except.ok c7module := rfl

/-- C7 amended: parse_fields implements zero-or-more fields rather than
the one-or-more of the EBNF in section 4.2, so in any context an opening
parenthesis immediately followed by a closing one yields the empty field
list; the grammar accepted by the parser is a superset of the EBNF. -/
theorem C7_empty_fields_ok (fuel : Nat) (t1 t2 : Token) (rest : List Token)
    (h1 : t1.kind = TokenKind.LPAREN) (h2 : t2.kind = TokenKind.RPAREN) :
    parse_fields (fuel + 1) (PState.mk (t2 :: rest) (some t1)) =
      Except.ok ([], PState.mk rest.tail rest.head?) := by
  simp [parse_fields, matchKind, advanceP, parse_fields_loop, at_kind, h1, h2,
    Except.bind, bind, pure]

/-- C7 witness: the amended theorem applied at concrete tokens. -/
theorem C7_witness :
    parse_fields 1 (PState.mk [Token.mk TokenKind.RPAREN (")") 1] (some (Token.mk TokenKind.LPAREN ("(") 1))) =
      Except.ok ([], PState.mk [] none) :=
  C7_empty_fields_ok 0 (Token.mk TokenKind.LPAREN ("(") 1) (Token.mk TokenKind.RPAREN (")") 1) [] rfl rfl

/-- Helper: the attribute statements of a nonempty attribute list. -/
theorem attributeStatements_of_ne_nil (attrs : List Field) (h : attrs ≠ []) :
    PythonCodeGenerator.attributeStatements attrs =
      some (_AttributeStatements.mk
        ("*" :: attrs.map PythonCodeGenerator._build_init_param_from_field)
        (attrs.map fun a => "self." ++ strOpt a.name ++ " = " ++ strOpt a.name)) := by
  rw [PythonCodeGenerator.attributeStatements, if_neg]
  simp [List.isEmpty_iff, h]

/-- C8: every Constructor of a Sum that declares attributes is emitted with
the attribute parameters appended after the constructor's own field
parameters and after the bare "*" marker, which makes them keyword-only in
the generated Python signature. -/
theorem C8_attributes_keyword_only (m : Module) (t : TypeDef) (s : Sum) (c : Constructor)
    (ht : t ∈ m.dfns) (hv : t.value = TyValue.sum s) (ha : s.attributes ≠ []) (hc : c ∈ s.types) :
    PythonCodeGenerator.visit_Constructor_decl t.name (PythonCodeGenerator.attributeStatements s.attributes) c ∈
        PythonCodeGenerator.generateClassDecls m ∧
    (PythonCodeGenerator.visit_Constructor_decl t.name
        (PythonCodeGenerator.attributeStatements s.attributes) c).init_params =
      "self" :: c.fields.map PythonCodeGenerator._build_init_param_from_field ++
        "*" :: s.attributes.map PythonCodeGenerator._build_init_param_from_field := by
  constructor
  · rw [PythonCodeGenerator.generateClassDecls, List.mem_flatten]
    refine ⟨PythonCodeGenerator.visit_Type_decls t, List.mem_map_of_mem _ ht, ?_⟩
    rw [PythonCodeGenerator.visit_Type_decls]
    rw [hv]
    exact List.mem_cons_of_mem _ (List.mem_map_of_mem _ hc)
  · rw [attributeStatements_of_ne_nil s.attributes ha]
    simp [PythonCodeGenerator.visit_Constructor_decl]

/-- C8 witness: the theorem applied at the concrete module c4mod, whose
only type definition is the Sum c8sum with one attribute field. -/
theorem C8_witness :
    PythonCodeGenerator.visit_Constructor_decl c8t.name
        (PythonCodeGenerator.attributeStatements c8sum.attributes) c8ctor ∈
      PythonCodeGenerator.generateClassDecls c4mod ∧
    (PythonCodeGenerator.visit_Constructor_decl c8t.name
        (PythonCodeGenerator.attributeStatements c8sum.attributes) c8ctor).init_params =
      "self" :: c8ctor.fields.map PythonCodeGenerator._build_init_param_from_field ++
        "*" :: c8sum.attributes.map PythonCodeGenerator._build_init_param_from_field :=
  C8_attributes_keyword_only c4mod c8t c8sum c8ctor (by decide) rfl (by decide) (by decide)

/-- Helper: a successful Except bind splits into successes of the parts. -/
theorem bind_ok {ε α β : Type} {x : Except ε α} {f : α → Except ε β} {b : β}
    (h : (x >>= f) = Except.ok b) : ∃ a, x = Except.ok a ∧ f a = Except.ok b := by
  cases x with
  | error e => simp [Bind.bind, Except.bind] at h
  | ok a => exact ⟨a, rfl, by simpa [Bind.bind, Except.bind] using h⟩

/-- Helper: a successful parse_sum always returns a Sum whose constructor
list starts with the first matched constructor. -/
theorem parse_sum_types_ne_nil (fuel : Nat) (st : PState) (s : Sum) (st2 : PState)
    (h : parse_sum fuel st = Except.ok (s, st2)) : s.types ≠ [] := by
  simp only [parse_sum] at h
  obtain ⟨⟨n, stA⟩, h1, h⟩ := bind_ok h
  obtain ⟨⟨fs, stB⟩, h2, h⟩ := bind_ok h
  obtain ⟨⟨more, stC⟩, h3, h⟩ := bind_ok h
  obtain ⟨⟨attrs, stD⟩, h4, h⟩ := bind_ok h
  simp only [Except.ok.injEq, Prod.mk.injEq] at h
  obtain ⟨hs, -⟩ := h
  subst hs
  simp

/-- Helper: a successful parse_type returning a sum value returns a Sum
with at least one constructor. -/
theorem parse_type_sum_types_ne_nil (fuel : Nat) (st : PState) (tv : TyValue) (st2 : PState)
    (h : parse_type fuel st = Except.ok (tv, st2)) :
    ∀ s, tv = TyValue.sum s → s.types ≠ [] := by
  intro s hs
  simp only [parse_type] at h
  obtain ⟨isLp, h1, h⟩ := bind_ok h
  cases isLp with
  | true =>
    rw [if_pos rfl] at h
    obtain ⟨⟨p, stB⟩, h2, h⟩ := bind_ok h
    simp only [Except.ok.injEq, Prod.mk.injEq] at h
    obtain ⟨htv, -⟩ := h
    rw [hs] at htv
    exact absurd htv (by simp)
  | false =>
    rw [if_neg (by simp)] at h
    obtain ⟨⟨s0, stB⟩, h2, h⟩ := bind_ok h
    simp only [Except.ok.injEq, Prod.mk.injEq] at h
    obtain ⟨htv, -⟩ := h
    rw [hs] at htv
    injection htv with hinj
    subst hinj
    exact parse_sum_types_ne_nil fuel st _ stB h2

/-- Helper: every type definition produced by parse_definitions whose value
is a Sum has a nonempty constructor list. -/
theorem parse_definitions_sum_types_ne_nil :
    ∀ (fuel : Nat) (st : PState) (defs : List TypeDef) (st2 : PState),
      parse_definitions fuel st = Except.ok (defs, st2) →
      ∀ t ∈ defs, ∀ s, t.value = TyValue.sum s → s.types ≠ [] := by
  intro fuel
  induction fuel with
  | zero => intro st defs st2 h; simp [parse_definitions] at h
  | succ fuel ih =>
    intro st defs st2 h
    simp only [parse_definitions] at h
    obtain ⟨isTy, h1, h⟩ := bind_ok h
    cases isTy with
    | false =>
      rw [if_neg (by simp)] at h
      simp only [Except.ok.injEq, Prod.mk.injEq] at h
      obtain ⟨hd, -⟩ := h
      subst hd
      intro t ht
      simp at ht
    | true =>
      rw [if_pos rfl] at h
      obtain ⟨⟨typename, stA⟩, h2, h⟩ := bind_ok h
      obtain ⟨⟨veq, stB⟩, h3, h⟩ := bind_ok h
      obtain ⟨⟨ty, stC⟩, h4, h⟩ := bind_ok h
      obtain ⟨⟨rest, stD⟩, h5, h⟩ := bind_ok h
      simp only [Except.ok.injEq, Prod.mk.injEq] at h
      obtain ⟨hd, -⟩ := h
      subst hd
      intro t ht s hs
      rcases List.mem_cons.mp ht with rfl | hmem
      · exact parse_type_sum_types_ne_nil fuel stB ty stC h4 s hs
      · exact ih stC rest stD h5 t hmem s hs

/-- Helper: every Sum in a successfully parsed module has at least one
constructor. -/
theorem parse_module_sum_types_ne_nil (fuel : Nat) (st : PState) (m : Module) (st2 : PState)
    (h : parse_module fuel st = Except.ok (m, st2)) :
    ∀ t ∈ m.dfns, ∀ s, t.value = TyValue.sum s → s.types ≠ [] := by
  simp only [parse_module] at h
  obtain ⟨isM, h1, h⟩ := bind_ok h
  cases isM with
  | false =>
    rw [if_neg (by simp)] at h
    split at h <;> simp at h
  | true =>
    rw [if_pos rfl] at h
    obtain ⟨⟨v1, stA⟩, h2, h⟩ := bind_ok h
    obtain ⟨⟨n, stB⟩, h3, h⟩ := bind_ok h
    obtain ⟨⟨v2, stC⟩, h4, h⟩ := bind_ok h
    obtain ⟨⟨defs, stD⟩, h5, h⟩ := bind_ok h
    obtain ⟨⟨v3, stE⟩, h6, h⟩ := bind_ok h
    simp only [Except.ok.injEq, Prod.mk.injEq] at h
    obtain ⟨hm, -⟩ := h
    subst hm
    exact parse_definitions_sum_types_ne_nil fuel stC defs stD h5

/-- C9: every Module returned by a successful parse satisfies the
invariant that each of its Sum nodes has a nonempty constructor list. -/
theorem C9_parsed_sums_nonempty (ts : List Token) (m : Module)
    (h : parse ts = Except.ok m) :
    ∀ t ∈ m.dfns, ∀ s, t.value = TyValue.sum s → s.types ≠ [] := by
  cases ts with
  | nil => simp [parse] at h
  | cons tok rest =>
    simp only [parse] at h
    cases hp : parse_module ((tok :: rest).length + 2) (PState.mk rest (some tok)) with
    | error e => rw [hp] at h; simp at h
    | ok v =>
      obtain ⟨m2, stE⟩ := v
      rw [hp] at h
      simp only [Except.ok.injEq] at h
      subst h
      exact parse_module_sum_types_ne_nil _ _ m2 stE hp

/-- C9 witness: the theorem applied at the concrete token sequence c9toks,
whose parse yields one Sum with the single constructor A. -/
theorem C9_witness :
    parse c9toks = Except.ok c9module ∧
    (Sum.mk [Constructor.mk ("A") []] []).types ≠ [] :=
  And.intro rfl
    (C9_parsed_sums_nonempty c9toks c9module rfl
      (TypeDef.mk ("t") (TyValue.sum (Sum.mk [Constructor.mk ("A") []] []))) (by decide)
      (Sum.mk [Constructor.mk ("A") []] []) rfl)

/-- Helper: a lowercase character is not uppercase. -/
theorem isUpper_eq_false_of_isLower (c : Char) (h : c.isLower = true) :
    c.isUpper = false := by
  simp only [Char.isLower, Char.isUpper, Bool.and_eq_true, decide_eq_true_eq,
    UInt32.le_def, BitVec.le_def] at h ⊢
  rw [Bool.and_eq_false_iff]
  right
  rw [decide_eq_false_iff_not]
  have e1 : (UInt32.toBitVec 97).toNat = 97 := rfl
  have e2 : (UInt32.toBitVec 122).toNat = 122 := rfl
  have e3 : (UInt32.toBitVec 90).toNat = 90 := rfl
  omega

/-- Helper: operator characters are neither uppercase nor lowercase. -/
theorem OPERATOR_TOKEN_TABLE_not_alpha (c : Char) (k : TokenKind)
    (h : OPERATOR_TOKEN_TABLE c = some k) : c.isUpper = false ∧ c.isLower = false := by
  rw [OPERATOR_TOKEN_TABLE] at h
  split_ifs at h <;> (subst c; exact ⟨rfl, rfl⟩)

/-- Helper: every token produced by a successful line scan is classified by
the case of its first character. -/
theorem scanLine_tokens_case :
    ∀ (fuel n : Nat) (l : List Char) (ts : List Token),
      scanLine fuel n l = Except.ok ts → ∀ t ∈ ts, tokenCaseOk t := by
  intro fuel
  induction fuel with
  | zero =>
    intro n l ts h t ht
    simp only [scanLine, Except.ok.injEq] at h
    subst h
    simp at ht
  | succ fuel ih =>
    intro n l ts h t ht
    cases l with
    | nil =>
      simp only [scanLine, Except.ok.injEq] at h
      subst h
      simp at ht
    | cons c rest =>
      simp only [scanLine] at h
      by_cases hw : c.isWhitespace
      · rw [if_pos hw] at h
        exact ih n rest ts h t ht
      · rw [if_neg hw] at h
        by_cases ha : c.isAlpha
        · rw [if_pos ha] at h
          cases hrec : scanLine fuel n (rest.dropWhile idContChar) with
          | error e => rw [hrec] at h; simp at h
          | ok ts2 =>
            rw [hrec] at h
            simp only [Except.ok.injEq] at h
            subst h
            rcases List.mem_cons.mp ht with rfl | hm
            · intro cFirst cs hval
              simp only [String.mk] at hval
              injection hval with h1 h2
              subst h1
              constructor
              · intro hu; simp [hu]
              · intro hl
                have hne := isUpper_eq_false_of_isLower c hl
                simp [hne]
            · exact ih n (rest.dropWhile idContChar) ts2 hrec t hm
        · rw [if_neg ha] at h
          cases hcm : isCommentStart c rest with
          | true =>
            rw [if_pos (by rw [hcm])] at h
            simp only [Except.ok.injEq] at h
            subst h
            simp at ht
          | false =>
            rw [if_neg (by simp [hcm])] at h
            cases hop : OPERATOR_TOKEN_TABLE c with
            | none => rw [hop] at h; simp at h
            | some k =>
              rw [hop] at h
              cases hrec : scanLine fuel n rest with
              | error e => rw [hrec] at h; simp at h
              | ok ts2 =>
                rw [hrec] at h
                simp only [Except.ok.injEq] at h
                subst h
                rcases List.mem_cons.mp ht with rfl | hm
                · intro cFirst cs hval
                  simp only [String.mk] at hval
                  injection hval with h1 h2
                  subst h1
                  have hno := OPERATOR_TOKEN_TABLE_not_alpha c k hop
                  constructor
                  · intro hu; exact absurd hu (by simp [hno.1])
                  · intro hl; exact absurd hl (by simp [hno.2])
                · exact ih n rest ts2 hrec t hm

/-- Helper: every token produced by a successful multi-line scan is
classified by the case of its first character. -/
theorem tokenizeLines_tokens_case :
    ∀ (ls : List (List Char)) (n : Nat) (ts : List Token),
      tokenizeLines n ls = Except.ok ts → ∀ t ∈ ts, tokenCaseOk t := by
  intro ls
  induction ls with
  | nil =>
    intro n ts h t ht
    simp only [tokenizeLines, Except.ok.injEq] at h
    subst h
    simp at ht
  | cons l ls ih =>
    intro n ts h t ht
    simp only [tokenizeLines] at h
    cases h1 : scanLine (l.length + 1) n l with
    | error e => rw [h1] at h; simp at h
    | ok ts1 =>
      rw [h1] at h
      cases h2 : tokenizeLines (n + 1) ls with
      | error e => rw [h2] at h; simp at h
      | ok ts2 =>
        rw [h2] at h
        simp only [Except.ok.injEq] at h
        subst h
        rcases List.mem_append.mp ht with hm | hm
        · exact scanLine_tokens_case (l.length + 1) n l ts1 h1 t hm
        · exact ih (n + 1) ts2 h2 t hm

/-- C5: for every input text, every token produced by tokenize whose value
starts with an uppercase letter has kind CONSTRUCTOR_ID, and every token
whose value starts with a lowercase letter has kind TYPE_ID. -/
theorem C5_identifier_case_classification (source : String) (ts : List Token)
    (h : tokenize source = Except.ok ts) (t : Token) (ht : t ∈ ts)
    (c : Char) (cs : List Char) (hv : t.value.data = c :: cs) :
    (c.isUpper = true → t.kind = TokenKind.CONSTRUCTOR_ID) ∧
    (c.isLower = true → t.kind = TokenKind.TYPE_ID) :=
  tokenizeLines_tokens_case (splitLines source.data) 1 ts h t ht c cs hv

/-- C5 witness: the theorem applied at a concrete source with one
uppercase-initial and one lowercase-initial identifier. -/
theorem C5_witness :
    tokenize ("Ab cd") =
      Except.ok [Token.mk TokenKind.CONSTRUCTOR_ID ("Ab") 1, Token.mk TokenKind.TYPE_ID ("cd") 1] ∧
    (Token.mk TokenKind.CONSTRUCTOR_ID ("Ab") 1).kind = TokenKind.CONSTRUCTOR_ID :=
  And.intro rfl
    ((C5_identifier_case_classification ("Ab cd")
        [Token.mk TokenKind.CONSTRUCTOR_ID ("Ab") 1, Token.mk TokenKind.TYPE_ID ("cd") 1] rfl
        (Token.mk TokenKind.CONSTRUCTOR_ID ("Ab") 1) (by decide) 'A' ['b'] rfl).1 rfl)

/-- Helper: the line scan fails exactly on the first reached invalid
character, with the message carrying that character and the given line
number. -/
theorem scanLine_firstBad :
    ∀ (fuel n : Nat) (l : List Char),
      (∀ c, firstBadInLine fuel l = some c →
        scanLine fuel n l =
          Except.error (ASDLSyntaxError.mk ("Invalid operator " ++ String.mk [c]) (some n))) ∧
      (firstBadInLine fuel l = none → ∃ ts, scanLine fuel n l = Except.ok ts) := by
  intro fuel
  induction fuel with
  | zero =>
    intro n l
    constructor
    · intro c hc; simp [firstBadInLine] at hc
    · intro hc; exact ⟨[], by simp [scanLine]⟩
  | succ fuel ih =>
    intro n l
    cases l with
    | nil =>
      constructor
      · intro c hc; simp [firstBadInLine] at hc
      · intro hc; exact ⟨[], by simp [scanLine]⟩
    | cons c rest =>
      by_cases hw : c.isWhitespace
      · constructor
        · intro cBad hc
          simp only [firstBadInLine] at hc
          rw [if_pos hw] at hc
          simp only [scanLine]
          rw [if_pos hw]
          exact (ih n rest).1 cBad hc
        · intro hc
          simp only [firstBadInLine] at hc
          rw [if_pos hw] at hc
          obtain ⟨ts, hts⟩ := (ih n rest).2 hc
          refine ⟨ts, ?_⟩
          simp only [scanLine]
          rw [if_pos hw]
          exact hts
      · by_cases ha : c.isAlpha
        · constructor
          · intro cBad hc
            simp only [firstBadInLine] at hc
            rw [if_neg hw, if_pos ha] at hc
            have hrec := (ih n (rest.dropWhile idContChar)).1 cBad hc
            simp only [scanLine]
            rw [if_neg hw, if_pos ha, hrec]
          · intro hc
            simp only [firstBadInLine] at hc
            rw [if_neg hw, if_pos ha] at hc
            obtain ⟨ts, hts⟩ := (ih n (rest.dropWhile idContChar)).2 hc
            refine ⟨Token.mk (if c.isUpper then TokenKind.CONSTRUCTOR_ID else TokenKind.TYPE_ID)
              (String.mk (c :: rest.takeWhile idContChar)) n :: ts, ?_⟩
            simp only [scanLine]
            rw [if_neg hw, if_pos ha, hts]
        · cases hcm : isCommentStart c rest with
          | true =>
            constructor
            · intro cBad hc
              simp only [firstBadInLine] at hc
              rw [if_neg hw, if_neg ha, if_pos (by rw [hcm])] at hc
              exact Option.noConfusion hc
            · intro hc
              refine ⟨[], ?_⟩
              simp only [scanLine]
              rw [if_neg hw, if_neg ha, if_pos (by rw [hcm])]
          | false =>
            cases hop : OPERATOR_TOKEN_TABLE c with
            | some k =>
              constructor
              · intro cBad hc
                simp only [firstBadInLine] at hc
                rw [if_neg hw, if_neg ha, if_neg (by simp [hcm]), hop] at hc
                have hrec := (ih n rest).1 cBad hc
                simp only [scanLine]
                rw [if_neg hw, if_neg ha, if_neg (by simp [hcm]), hop, hrec]
              · intro hc
                simp only [firstBadInLine] at hc
                rw [if_neg hw, if_neg ha, if_neg (by simp [hcm]), hop] at hc
                obtain ⟨ts, hts⟩ := (ih n rest).2 hc
                refine ⟨Token.mk k (String.mk [c]) n :: ts, ?_⟩
                simp only [scanLine]
                rw [if_neg hw, if_neg ha, if_neg (by simp [hcm]), hop, hts]
            | none =>
              constructor
              · intro cBad hc
                simp only [firstBadInLine] at hc
                rw [if_neg hw, if_neg ha, if_neg (by simp [hcm]), hop] at hc
                injection hc with hc
                subst hc
                simp only [scanLine]
                rw [if_neg hw, if_neg ha, if_neg (by simp [hcm]), hop]
              · intro hc
                simp only [firstBadInLine] at hc
                rw [if_neg hw, if_neg ha, if_neg (by simp [hcm]), hop] at hc
                exact Option.noConfusion hc

/-- Helper: the multi-line scan fails exactly on the first reached invalid
character of the source, with its line number. -/
theorem tokenizeLines_firstBad :
    ∀ (ls : List (List Char)) (n : Nat),
      (∀ c m, firstBadLines n ls = some (c, m) →
        tokenizeLines n ls =
          Except.error (ASDLSyntaxError.mk ("Invalid operator " ++ String.mk [c]) (some m))) ∧
      (firstBadLines n ls = none → ∃ ts, tokenizeLines n ls = Except.ok ts) := by
  intro ls
  induction ls with
  | nil =>
    intro n
    constructor
    · intro c m hc; simp [firstBadLines] at hc
    · intro hc; exact ⟨[], rfl⟩
  | cons l ls ih =>
    intro n
    cases hfb : firstBadInLine (l.length + 1) l with
    | some c =>
      have herr := (scanLine_firstBad (l.length + 1) n l).1 c hfb
      constructor
      · intro cBad m hc
        simp only [firstBadLines] at hc
        rw [hfb] at hc
        injection hc with hc
        injection hc with hc1 hc2
        subst hc1
        subst hc2
        simp only [tokenizeLines]
        rw [herr]
      · intro hc
        simp only [firstBadLines] at hc
        rw [hfb] at hc
        exact Option.noConfusion hc
    | none =>
      obtain ⟨ts1, hts1⟩ := (scanLine_firstBad (l.length + 1) n l).2 hfb
      constructor
      · intro cBad m hc
        simp only [firstBadLines] at hc
        rw [hfb] at hc
        have hrec := (ih (n + 1)).1 cBad m hc
        simp only [tokenizeLines]
        rw [hts1, hrec]
      · intro hc
        simp only [firstBadLines] at hc
        rw [hfb] at hc
        obtain ⟨ts2, hts2⟩ := (ih (n + 1)).2 hc
        refine ⟨ts1 ++ ts2, ?_⟩
        simp only [tokenizeLines]
        rw [hts1, hts2]

/-- C6: tokenize fails exactly when the scan reaches a character that is
not whitespace, not alphabetic, not the start of a comment and not an
operator, and the raised error carries that character in its message and
the 1-based line number; when no such character is reached, tokenize
succeeds. -/
theorem C6_invalid_char_error (source : String) :
    (∀ c n, firstBadChar source = some (c, n) →
      tokenize source =
        Except.error (ASDLSyntaxError.mk ("Invalid operator " ++ String.mk [c]) (some n))) ∧
    (firstBadChar source = none → ∃ ts, tokenize source = Except.ok ts) :=
  tokenizeLines_firstBad (splitLines source.data) 1

/-- C6 witness: the theorem applied at a concrete source whose second line
holds an invalid character. -/
theorem C6_witness :
    firstBadChar ("ab -- ^\n  %x") = some ('%', 2) ∧
    tokenize ("ab -- ^\n  %x") =
      Except.error (ASDLSyntaxError.mk ("Invalid operator %") (some 2)) :=
  And.intro rfl ((C6_invalid_char_error ("ab -- ^\n  %x")).1 '%' 2 rfl)

end Pyasdl

